import Mathlib

/-!
Shallow embedding of the pinocchio-escrow-suite core: the escrow record,
the instruction codecs, the Dutch-auction pricing function and the
make/take settlement handlers, translated from
src/src/states/escrows.rs, src/src/instructions/make.rs,
src/src/instructions/take.rs and src/src/error.rs.

Machine integers are modelled as Nat with explicit wrapping at 2^64
(Rust release-profile arithmetic on u64: `a * b` and `a + b` wrap, `a - b`
wraps on underflow, `a / b` panics when `b = 0`, out-of-range slice
indexing panics).  Panics are modelled as explicit outcome constructors.
-/

namespace EscrowSuite

/-- 2^64, the modulus of Rust u64 arithmetic. -/
def U64MOD : Nat := 2 ^ 64

/-- 2^128, the modulus of Rust u128 arithmetic. -/
def U128MOD : Nat := 2 ^ 128

/-- Wrapping u64 subtraction: `a - b` on u64 values (`a, b < 2^64`). -/
def wsub (a b : Nat) : Nat := if b ≤ a then a - b else a + U64MOD - b

/-- Addresses (Solana pubkeys) are 32-byte values; modelled as byte lists. -/
abbrev Pubkey := List Nat

/-- Error codes of the program, from src/src/error.rs (EscrowErrorCode). -/
inductive EscrowErrorCode where
  | invalidMaker
  | escrowAlreadyExists
  | tokenAccountAlreadyExists
  | pdaMismatch
  | invalidTokenOwner
  | invalidMakerTokenAccount
  | invalidTokenMint
  | mintMismatch
  | invalidEscrowType
  | insufficientFunds
  deriving DecidableEq, Repr

/-- The subset of pinocchio ProgramError values this program produces. -/
inductive ProgramError where
  | notEnoughAccountKeys
  | invalidInstructionData
  | custom (code : EscrowErrorCode)
  deriving DecidableEq, Repr

/-- Escrow variants, from src/src/states/escrows.rs (EscrowType, repr u8).
The source's Partial variant is called partialFill here. -/
inductive EscrowType where
  | simple
  | partialFill
  | dutchAuction
  | oracle
  deriving DecidableEq, Repr

/-- The repr(u8) discriminant of EscrowType (the `as u8` cast). -/
def EscrowType.toU8 : EscrowType → Nat
  | .simple => 0
  | .partialFill => 1
  | .dutchAuction => 2
  | .oracle => 3

/-- TryFrom u8 for EscrowType, from src/src/states/escrows.rs lines 16-28. -/
def EscrowType.tryFromU8 (value : Nat) : Except ProgramError EscrowType :=
  match value with
  | 0 => .ok .simple
  | 1 => .ok .partialFill
  | 2 => .ok .dutchAuction
  | 3 => .ok .oracle
  | _ => .error .invalidInstructionData

/-- The escrow record, from src/src/states/escrows.rs (struct Escrow).
u64 fields are Nats (< 2^64), the 2-byte seed is a pair of bytes. -/
structure Escrow where
  maker_pubkey : Pubkey
  seed : Nat × Nat
  escrow_type : EscrowType
  token_a_mint : Pubkey
  token_a_amount : Nat
  token_b_mint : Pubkey
  token_b_amount : Nat
  bump : Nat
  start_price : Nat
  end_price : Nat
  start_time : Nat
  duration : Nat
  end_time : Nat
  deriving DecidableEq, Repr

/-- The bytes of the PDA seed constant Escrow::PREFIX = "Escrow". -/
def escrowSeedConst : List Nat := [69, 115, 99, 114, 111, 119]

/-- The type of the host's address-derivation function
(pinocchio's create_program_address), over the seed list. -/
abbrev DeriveFn := List (List Nat) → Pubkey

/-- Modelled from the spec: the host's deterministic, collision-free
address-derivation scheme (`derive(prefix, owner_identity, seed, bump)`,
pinocchio's create_program_address — dependency code, not in src/).
Length-prefixed concatenation keeps distinct seed lists at distinct
addresses, matching the spec's determinism and bit-sensitivity claims. -/
def modelDerive (seeds : List (List Nat)) : Pubkey :=
  seeds.foldr (fun s acc => s.length :: s ++ acc) []

/-- PDA validation, from src/src/states/escrows.rs lines 56-69
(Escrow::validate_escrow_pda): re-derive from
[PREFIX, owner, seed, [bump]] and compare with the given pda. -/
def validate_escrow_pda (derive : DeriveFn) (pda owner : Pubkey)
    (bump : Nat) (seed : Nat × Nat) : Except ProgramError Unit :=
  let derived := derive [escrowSeedConst, owner, [seed.1, seed.2], [bump]]
  if derived = pda then .ok () else .error (.custom .pdaMismatch)

/-- Dutch-auction price, from src/src/states/escrows.rs lines 133-161
(Escrow::calculate_dutch_price).  The u64 subtractions that the source
leaves unguarded (start_price - end_price, start_price - reduction) are
wrapping; the widened product is u128 (`price_drop as u128 * time_elapsed
as u128`), the `as u64` cast back truncates mod 2^64. -/
def calculate_dutch_price (e : Escrow) (current_time : Nat) : Nat :=
  match e.escrow_type with
  | .dutchAuction =>
    if current_time ≤ e.start_time then e.start_price
    else if e.end_time ≤ current_time then e.end_price
    else
      let time_elapsed := current_time - e.start_time
      let total_duration := e.end_time - e.start_time
      let price_drop := wsub e.start_price e.end_price
      let price_reduction := price_drop * time_elapsed % U128MOD / total_duration
      wsub e.start_price (price_reduction % U64MOD)
  | _ => e.token_b_amount

/-- From src/src/states/escrows.rs lines 182-187
(Escrow::get_required_token_b_amount). -/
def get_required_token_b_amount (e : Escrow) (current_time : Nat) : Nat :=
  match e.escrow_type with
  | .dutchAuction => calculate_dutch_price e current_time
  | _ => e.token_b_amount

/-- Result of a decode: ok, a ProgramError, or a Rust panic
(out-of-range slice index). -/
inductive Unpacked (α : Type) where
  | ok (val : α)
  | err (e : ProgramError)
  | panicked
  deriving DecidableEq, Repr

/-- Little-endian bytes of a value, k bytes (u64::to_le_bytes is k = 8). -/
def natToLe : Nat → Nat → List Nat
  | 0, _ => []
  | k + 1, n => n % 256 :: natToLe k (n / 256)

/-- Value of a little-endian byte list (u64::from_le_bytes). -/
def leToNat : List Nat → Nat
  | [] => 0
  | b :: bs => b + 256 * leToNat bs

/-- Take-instruction payload, from src/src/instructions/take.rs lines
162-179 (struct TakeEscrowIx; LEN = 1 + 8 + 8 = 17). -/
structure TakeEscrowIx where
  escrow_type : EscrowType
  token_a_amount : Nat
  token_b_amount : Nat
  deriving DecidableEq, Repr

/-- TakeEscrowIx::pack, from src/src/instructions/take.rs lines 181-187:
tag byte, then the two amounts little-endian, 17 bytes. -/
def TakeEscrowIx.pack (ix : TakeEscrowIx) : List Nat :=
  ix.escrow_type.toU8 :: (natToLe 8 ix.token_a_amount ++ natToLe 8 ix.token_b_amount)

/-- TakeEscrowIx::unpack, from src/src/instructions/take.rs lines 189-199:
reject any length other than 17, then read tag and the two u64s. -/
def TakeEscrowIx.unpack (data : List Nat) : Unpacked TakeEscrowIx :=
  if data.length ≠ 17 then .err .invalidInstructionData
  else
    match data with
    | b0 :: b1 :: b2 :: b3 :: b4 :: b5 :: b6 :: b7 :: b8 ::
      b9 :: b10 :: b11 :: b12 :: b13 :: b14 :: b15 :: b16 :: _ =>
      match EscrowType.tryFromU8 b0 with
      | .error e => .err e
      | .ok t =>
        .ok { escrow_type := t,
              token_a_amount := leToNat [b1, b2, b3, b4, b5, b6, b7, b8],
              token_b_amount := leToNat [b9, b10, b11, b12, b13, b14, b15, b16] }
    | _ => .err .invalidInstructionData

/-- Make-instruction payload, from src/src/instructions/make.rs lines
109-120 (struct MakeEscrowIx). -/
structure MakeEscrowIx where
  escrow_type : EscrowType
  token_a_amount : Nat
  token_b_amount : Nat
  seed : Nat × Nat
  bump : Nat
  end_price : Nat
  duration : Nat
  deriving DecidableEq, Repr

/-- MakeEscrowIx::LEN, from src/src/instructions/make.rs line 123:
1 + 8 + 8 + 2 + 1 + 8 + 8 + 8 = 44 (the constant sums to 44, not 36). -/
def MakeEscrowIx.LEN : Nat := 1 + 8 + 8 + 2 + 1 + 8 + 8 + 8

/-- The 36 bytes of MakeEscrowIx payload that pack actually writes
(indices 0..36 of the buffer): tag, amounts, seed, bump, end_price,
duration, all little-endian. -/
def makeLayout36 (ix : MakeEscrowIx) : List Nat :=
  ix.escrow_type.toU8 ::
    (natToLe 8 ix.token_a_amount ++ natToLe 8 ix.token_b_amount ++
      [ix.seed.1, ix.seed.2] ++ [ix.bump] ++
      natToLe 8 ix.end_price ++ natToLe 8 ix.duration)

/-- MakeEscrowIx::pack, from src/src/instructions/make.rs lines 163-178:
a [0u8; LEN] buffer (LEN = 44) whose bytes 0..36 are written; the last
8 bytes stay zero. -/
def MakeEscrowIx.pack (ix : MakeEscrowIx) : List Nat :=
  makeLayout36 ix ++ List.replicate 8 0

/-- MakeEscrowIx::unpack, from src/src/instructions/make.rs lines 180-219.
The source does no length check: `data[0]` panics on an empty buffer, and
after a valid tag the slices `data[1..9]` .. `data[28..36]` panic whenever
the buffer is shorter than 36 bytes; bytes past 35 are never read. -/
def MakeEscrowIx.unpack (data : List Nat) : Unpacked MakeEscrowIx :=
  match data with
  | [] => .panicked
  | b0 :: rest =>
    match EscrowType.tryFromU8 b0 with
    | .error e => .err e
    | .ok t =>
      match rest with
      | b1 :: b2 :: b3 :: b4 :: b5 :: b6 :: b7 :: b8 ::
        b9 :: b10 :: b11 :: b12 :: b13 :: b14 :: b15 :: b16 ::
        b17 :: b18 :: b19 ::
        b20 :: b21 :: b22 :: b23 :: b24 :: b25 :: b26 :: b27 ::
        b28 :: b29 :: b30 :: b31 :: b32 :: b33 :: b34 :: b35 :: _ =>
        .ok { escrow_type := t,
              token_a_amount := leToNat [b1, b2, b3, b4, b5, b6, b7, b8],
              token_b_amount := leToNat [b9, b10, b11, b12, b13, b14, b15, b16],
              seed := (b17, b18),
              bump := b19,
              end_price := leToNat [b20, b21, b22, b23, b24, b25, b26, b27],
              duration := leToNat [b28, b29, b30, b31, b32, b33, b34, b35] }
      | _ => .panicked

/-- Start and end time set by make_escrow, from
src/src/instructions/make.rs lines 80-85: for a Dutch auction,
(now, now + duration) with wrapping u64 addition; (0, 0) otherwise. -/
def makeAuctionTimes (escrow_type : EscrowType) (now duration : Nat) : Nat × Nat :=
  if escrow_type = .dutchAuction then (now, (now + duration) % U64MOD) else (0, 0)

/-- The token accounts take_escrow moves funds between: the escrow's
asset-A vault, the taker's A and B accounts, the maker's B account. -/
inductive TokenAcct where
  | vaultA
  | takerA
  | takerB
  | makerB
  deriving DecidableEq, Repr

/-- One SPL-token transfer performed by the handler. -/
structure Transfer where
  source : TokenAcct
  dest : TokenAcct
  amount : Nat
  deriving DecidableEq, Repr

/-- Outcome of take_escrow: success with the performed transfers and the
escrow record as left on exit, a ProgramError, or a Rust panic (the
divide-by-zero in the Partial branch). -/
inductive TakeOutcome where
  | ok (transfers : List Transfer) (newEscrow : Escrow)
  | err (e : ProgramError)
  | panicked
  deriving DecidableEq, Repr

/-- The pre-state take_escrow reads: the escrow record, the account keys,
the taker's signer flag, the mints and balances of the taker's token
accounts, the vault balance (never read by the source, present so claims
about it can be stated), the raw instruction bytes and the clock. -/
structure TakeInputs where
  escrow : Escrow
  escrowAccountKey : Pubkey
  makerAccountKey : Pubkey
  takerIsSigner : Bool
  takerTokenAMint : Pubkey
  takerTokenBMint : Pubkey
  takerTokenABalance : Nat
  takerTokenBBalance : Nat
  vaultTokenABalance : Nat
  instructionData : List Nat
  currentTime : Nat
  deriving DecidableEq, Repr

/-- take_escrow, from src/src/instructions/take.rs lines 16-160,
parameterized by the host's derivation function.  In order: PDA check on
(escrow key, maker-account key, stored bump, stored seed), taker signer
check, mint checks on the taker's two token accounts, then variant
dispatch.  Simple guards both amounts against the taker's balances and
transfers them; Partial unpacks the payload, guards requested against
remaining, computes the basis-points proportion in wrapping u64
arithmetic (panicking when remaining is 0), guards the owed amount
against the taker's B balance, transfers and decrements the record;
DutchAuction unpacks, guards against the taker's A balance, prices via
the clock and transfers; Oracle (the `_` arm) is InvalidEscrowType. -/
def take_escrow (derive : DeriveFn) (inp : TakeInputs) : TakeOutcome :=
  match validate_escrow_pda derive inp.escrowAccountKey inp.makerAccountKey
      inp.escrow.bump inp.escrow.seed with
  | .error e => .err e
  | .ok _ =>
    if !inp.takerIsSigner then .err (.custom .invalidMaker)
    else if inp.takerTokenAMint ≠ inp.escrow.token_a_mint then
      .err (.custom .invalidTokenMint)
    else if inp.takerTokenBMint ≠ inp.escrow.token_b_mint then
      .err (.custom .invalidTokenMint)
    else
      match inp.escrow.escrow_type with
      | .simple =>
        if inp.takerTokenABalance < inp.escrow.token_a_amount ∨
            inp.takerTokenBBalance < inp.escrow.token_b_amount then
          .err (.custom .insufficientFunds)
        else
          .ok [⟨.vaultA, .takerA, inp.escrow.token_a_amount⟩,
               ⟨.takerB, .makerB, inp.escrow.token_b_amount⟩] inp.escrow
      | .partialFill =>
        match TakeEscrowIx.unpack inp.instructionData with
        | .err e => .err e
        | .panicked => .panicked
        | .ok ix =>
          if inp.escrow.token_a_amount < ix.token_a_amount then
            .err (.custom .insufficientFunds)
          else if inp.escrow.token_a_amount = 0 then
            -- Rust: (ix.token_a_amount * 10000) / escrow.token_a_amount
            -- divides by zero and panics.
            .panicked
          else
            let percentage :=
              ix.token_a_amount * 10000 % U64MOD / inp.escrow.token_a_amount
            let token_b_amount :=
              inp.escrow.token_b_amount * percentage % U64MOD / 10000
            if inp.takerTokenBBalance < token_b_amount then
              .err (.custom .insufficientFunds)
            else
              .ok [⟨.vaultA, .takerA, ix.token_a_amount⟩,
                   ⟨.takerB, .makerB, token_b_amount⟩]
                { inp.escrow with
                  token_a_amount := wsub inp.escrow.token_a_amount ix.token_a_amount,
                  token_b_amount := wsub inp.escrow.token_b_amount token_b_amount }
      | .dutchAuction =>
        match TakeEscrowIx.unpack inp.instructionData with
        | .err e => .err e
        | .panicked => .panicked
        | .ok ix =>
          if inp.takerTokenABalance < ix.token_a_amount then
            .err (.custom .insufficientFunds)
          else
            let required := get_required_token_b_amount inp.escrow inp.currentTime
            if ix.token_b_amount < required then
              .err (.custom .insufficientFunds)
            else
              .ok [⟨.vaultA, .takerA, ix.token_a_amount⟩,
                   ⟨.takerB, .makerB, required⟩] inp.escrow
      | .oracle => .err (.custom .invalidEscrowType)

/-- Result of one Partial fill in isolation. -/
inductive StepResult where
  | next (a b : Nat)
  | insufficient
  | divPanic
  deriving DecidableEq, Repr

/-- The Partial-branch settlement arithmetic of take_escrow in isolation,
from src/src/instructions/take.rs lines 91-119: guard, the two-stage
basis-points computation (wrapping u64), the taker-balance guard, and the
two decrements.  `bal` is the taker's asset-B balance.  Lemma
take_escrow_partial_eq_step ties it to the full handler. -/
def partialStep (bal a b req : Nat) : StepResult :=
  if a < req then .insufficient
  else if a = 0 then .divPanic
  else
    let percentage := req * 10000 % U64MOD / a
    let owed := b * percentage % U64MOD / 10000
    if bal < owed then .insufficient
    else .next (wsub a req) (wsub b owed)

/-- A sequence of Partial fills against one record: fold partialStep over
the requested amounts, stopping (none) at the first fill that does not
complete. -/
def runFills (bal : Nat) : Nat → Nat → List Nat → Option (Nat × Nat)
  | a, b, [] => some (a, b)
  | a, b, req :: rest =>
    match partialStep bal a b req with
    | .next a1 b1 => runFills bal a1 b1 rest
    | _ => none

/-- A concrete Simple-variant record: maker [1], mints [2] and [3],
50 units of each side offered. -/
def simpleEscrow50 : Escrow :=
  { maker_pubkey := [1], seed := (0, 0), escrow_type := .simple,
    token_a_mint := [2], token_a_amount := 50,
    token_b_mint := [3], token_b_amount := 50,
    bump := 0, start_price := 0, end_price := 0,
    start_time := 0, duration := 0, end_time := 0 }

/-- Concrete Take pre-state for the Simple guard: the vault holds 100 ≥ 50
and the taker holds 100 ≥ 50 of asset B, but the taker holds 0 of asset A. -/
def takeInpVaultRich : TakeInputs :=
  { escrow := simpleEscrow50,
    escrowAccountKey := modelDerive [escrowSeedConst, [1], [0, 0], [0]],
    makerAccountKey := [1],
    takerIsSigner := true,
    takerTokenAMint := [2], takerTokenBMint := [3],
    takerTokenABalance := 0, takerTokenBBalance := 100,
    vaultTokenABalance := 100,
    instructionData := [], currentTime := 0 }

/-- Concrete Take pre-state whose record stores maker identity [7] while
the maker account passed in is [1]; the record account sits at the
address derived from the PASSED key [1].  The taker-signer flag is off so
the handler's progress past the PDA check is observable. -/
def takeInpForgedOwner : TakeInputs :=
  { escrow := { simpleEscrow50 with maker_pubkey := [7] },
    escrowAccountKey := modelDerive [escrowSeedConst, [1], [0, 0], [0]],
    makerAccountKey := [1],
    takerIsSigner := false,
    takerTokenAMint := [2], takerTokenBMint := [3],
    takerTokenABalance := 100, takerTokenBBalance := 100,
    vaultTokenABalance := 100,
    instructionData := [], currentTime := 0 }

/-- A concrete Partial-variant record with 100 remaining on each side. -/
def partialEscrow100 : Escrow :=
  { simpleEscrow50 with
    escrow_type := .partialFill, token_a_amount := 100, token_b_amount := 100 }

/-- Concrete Partial take pre-state: requested 50 of the remaining 100,
but the taker only holds 10 of asset B (the owed amount will be 50). -/
def takeInpPoorTaker : TakeInputs :=
  { takeInpVaultRich with
    escrow := partialEscrow100,
    takerTokenABalance := 100, takerTokenBBalance := 10,
    instructionData := TakeEscrowIx.pack ⟨.partialFill, 50, 0⟩ }

/-- Concrete Partial take pre-state on a fully-consumed record
(remaining asset A = 0, still open) with requested_a = 0. -/
def takeInpConsumed : TakeInputs :=
  { takeInpVaultRich with
    escrow := { partialEscrow100 with token_a_amount := 0, token_b_amount := 5 },
    takerTokenABalance := 100, takerTokenBBalance := 100,
    instructionData := TakeEscrowIx.pack ⟨.partialFill, 0, 0⟩ }

/-- The concrete Dutch auction of the spec's pricing property:
start_price 10000, end_price 5000, start_time 0, duration 3600. -/
def dutchAuctionE : Escrow :=
  { maker_pubkey := [1], seed := (0, 0), escrow_type := .dutchAuction,
    token_a_mint := [2], token_a_amount := 1000,
    token_b_mint := [3], token_b_amount := 10000,
    bump := 0, start_price := 10000, end_price := 5000,
    start_time := 0, duration := 3600, end_time := 3600 }

/-- Concrete Take pre-state whose record account address does not match
the derivation from the passed maker account. -/
def takeInpBadPda : TakeInputs :=
  { takeInpVaultRich with escrowAccountKey := [9] }

/-- Concrete Simple take pre-state where the taker holds enough of both
assets. -/
def takeInpSimpleOk : TakeInputs :=
  { takeInpVaultRich with takerTokenABalance := 100 }

/-- Concrete Partial take pre-state: requested 50 of the remaining 100,
with an amply funded taker. -/
def takeInpPartialOk : TakeInputs :=
  { takeInpVaultRich with
    escrow := partialEscrow100,
    takerTokenABalance := 100, takerTokenBBalance := 100,
    instructionData := TakeEscrowIx.pack ⟨.partialFill, 50, 0⟩ }

/-- Wrapping subtraction agrees with Nat subtraction when no underflow. -/
theorem wsub_eq_sub (a b : Nat) (h : b ≤ a) : wsub a b = a - b := by
  unfold wsub; exact if_pos h

/-- Wrapping subtraction of u64 values stays below 2^64. -/
theorem wsub_lt_u64 (a b : Nat) (ha : a < U64MOD) : wsub a b < U64MOD := by
  unfold wsub
  split
  · omega
  · omega

/-- natToLe always produces exactly k bytes. -/
theorem natToLe_length (k n : Nat) : (natToLe k n).length = k := by
  induction k generalizing n with
  | zero => rfl
  | succ k ih => simp [natToLe, ih]

/-- The numeric value of the u64 modulus. -/
theorem U64MOD_eq : U64MOD = 18446744073709551616 := by norm_num [U64MOD]

/-- The basis-points proportion the Partial branch computes is at most
10000, even when the u64 product wraps: if the product does not wrap this
is requested/remaining scaled; if it wraps, remaining must itself exceed
2^64/10000, which caps the quotient. -/
theorem percentage_le (a req : Nat) (hreq : req ≤ a) (hpos : 0 < a) :
    req * 10000 % U64MOD / a ≤ 10000 := by
  have hle : req * 10000 % U64MOD ≤ 10000 * a := by
    by_cases h : req * 10000 < U64MOD
    · rw [Nat.mod_eq_of_lt h]; omega
    · have hm : req * 10000 % U64MOD < U64MOD :=
        Nat.mod_lt _ (by rw [U64MOD_eq]; omega)
      rw [U64MOD_eq] at h hm ⊢
      omega
  calc req * 10000 % U64MOD / a ≤ 10000 * a / a := Nat.div_le_div_right hle
    _ = 10000 := Nat.mul_div_cancel 10000 hpos

/-- The owed amount the Partial branch computes never exceeds the
remaining asset-B amount, even when the u64 product wraps. -/
theorem owed_le (a b req : Nat) (hreq : req ≤ a) (hpos : 0 < a) :
    b * (req * 10000 % U64MOD / a) % U64MOD / 10000 ≤ b := by
  have hp := percentage_le a req hreq hpos
  set p := req * 10000 % U64MOD / a with hpdef
  by_cases h : b * p < U64MOD
  · rw [Nat.mod_eq_of_lt h]
    calc b * p / 10000 ≤ b * 10000 / 10000 :=
        Nat.div_le_div_right (Nat.mul_le_mul_left b hp)
      _ = b := Nat.mul_div_cancel b (by norm_num)
  · have hm : b * p % U64MOD < U64MOD := Nat.mod_lt _ (by rw [U64MOD_eq]; omega)
    have hbp : U64MOD ≤ b * p := Nat.le_of_not_lt h
    have hbp2 : U64MOD ≤ b * 10000 := hbp.trans (Nat.mul_le_mul_left b hp)
    have hq : b * p % U64MOD / 10000 ≤ (U64MOD - 1) / 10000 :=
      Nat.div_le_div_right (by omega)
    have hc : (U64MOD - 1) / 10000 = 1844674407370955 := by
      rw [U64MOD_eq]
    rw [U64MOD_eq] at hbp2
    omega

/-- Characterization of a successful Partial fill: the guard passed,
the divisor was nonzero, and the new amounts are the exact (non-wrapping)
decrements by the requested and owed quantities. -/
theorem partialStep_next (bal a b req a1 b1 : Nat)
    (h : partialStep bal a b req = .next a1 b1) :
    req ≤ a ∧ 0 < a ∧
      b * (req * 10000 % U64MOD / a) % U64MOD / 10000 ≤ b ∧
      a1 = a - req ∧
      b1 = b - b * (req * 10000 % U64MOD / a) % U64MOD / 10000 := by
  unfold partialStep at h
  split at h
  · exact absurd h (by simp)
  · split at h
    · exact absurd h (by simp)
    · simp only [] at h
      split at h
      · exact absurd h (by simp)
      · rename_i hlt hz _
        have hreq : req ≤ a := Nat.le_of_not_lt hlt
        have hpos : 0 < a := Nat.pos_of_ne_zero hz
        have howed := owed_le a b req hreq hpos
        injection h with h1 h2
        refine ⟨hreq, hpos, howed, ?_, ?_⟩
        · rw [← h1, wsub_eq_sub a req hreq]
        · rw [← h2, wsub_eq_sub _ _ howed]

/-- C1 counterexample: a Simple take whose record amounts satisfy the
claim's two bounds (asset_a_amount at most the VAULT asset-A balance,
asset_b_amount at most the taker's asset-B balance) still fails with
InsufficientFunds instead of transferring, because the source guards the
record's asset_a_amount against the TAKER's asset-A balance (0 here). -/
theorem c1_vault_bound_counterexample :
    takeInpVaultRich.escrow.token_a_amount ≤ takeInpVaultRich.vaultTokenABalance ∧
    takeInpVaultRich.escrow.token_b_amount ≤ takeInpVaultRich.takerTokenBBalance ∧
    take_escrow modelDerive takeInpVaultRich =
      .err (.custom .insufficientFunds) := by decide

/-- C2 counterexample: a Take whose record stores owner identity [7]
while the record account's address is derived from the passed maker
account [1].  The address derived from the record's own stored identity
differs from the record account's address, yet the handler does not fail
with PdaMismatch: it proceeds past the PDA check (failing later on the
signer check), because it derives from the passed account, not the
stored identity. -/
theorem c2_stored_owner_counterexample :
    modelDerive [escrowSeedConst, takeInpForgedOwner.escrow.maker_pubkey,
        [takeInpForgedOwner.escrow.seed.1, takeInpForgedOwner.escrow.seed.2],
        [takeInpForgedOwner.escrow.bump]] ≠ takeInpForgedOwner.escrowAccountKey ∧
    take_escrow modelDerive takeInpForgedOwner ≠ .err (.custom .pdaMismatch) ∧
    take_escrow modelDerive takeInpForgedOwner =
      .err (.custom .invalidMaker) := by decide

/-- C3 counterexample: at the reachable Partial input requested_a =
remaining_a = 2^60 the intermediate product requested_a * 10000 exceeds
the u64 range (the truncating formula would give percentage 10000), and
the wrapping u64 computation the source performs instead completes the
fill handing over all 2^60 units of asset A for 0 units of asset B. -/
theorem c3_overflow_counterexample :
    U64MOD ≤ 2 ^ 60 * 10000 ∧
    2 ^ 60 * 10000 / 2 ^ 60 = 10000 ∧
    partialStep 100 (2 ^ 60) 7 (2 ^ 60) = .next 0 7 := by decide

/-- C4: evaluating the decoders at short buffers.  TakeEscrowIx::unpack
rejects a 16-byte buffer with InvalidInstructionData as the claim says,
and a bad tag in either decoder is rejected the same way; but
MakeEscrowIx::unpack on a 35-byte buffer with a valid tag byte panics
(out-of-range slice index) instead of returning an error. -/
theorem c4_short_buffer_behavior :
    MakeEscrowIx.unpack (List.replicate 35 0) = .panicked ∧
    MakeEscrowIx.unpack [] = .panicked ∧
    MakeEscrowIx.unpack (9 :: List.replicate 40 0) = .err .invalidInstructionData ∧
    TakeEscrowIx.unpack (List.replicate 16 0) = .err .invalidInstructionData ∧
    TakeEscrowIx.unpack (9 :: List.replicate 16 0) = .err .invalidInstructionData := by
  decide

/-- C5 counterexample: a Partial take with requested_a = 50 at most the
remaining 100, where the handler does not transfer anything: the taker's
asset-B balance (10) is below the owed 50, so it fails with
InsufficientFunds — a guard the claim omits. -/
theorem c5_balance_guard_counterexample :
    TakeEscrowIx.unpack takeInpPoorTaker.instructionData =
      .ok ⟨.partialFill, 50, 0⟩ ∧
    (50 : Nat) ≤ takeInpPoorTaker.escrow.token_a_amount ∧
    take_escrow modelDerive takeInpPoorTaker =
      .err (.custom .insufficientFunds) := by decide

/-- C6 counterexample: starting a Partial record at asset_a_amount = 5,
asset_b_amount = 0, one successful fill of 2 leaves asset_b_amount at 0
while the escrow is not fully consumed (3 of 5 units of asset A remain):
the amounts do not reach zero exactly when the escrow is consumed. -/
theorem c6_zero_b_counterexample :
    runFills 1000 5 0 [2] = some (3, 0) ∧ (3 : Nat) ≠ 0 ∧ (2 : Nat) ≠ 5 := by
  decide

/-- C8 counterexample: MakeEscrowIx::pack yields a 44-byte buffer, not
the claimed 36 bytes (LEN = 1+8+8+2+1+8+8+8 sums to 44; the final 8
bytes are never written and stay zero). -/
theorem c8_length_counterexample :
    (MakeEscrowIx.pack ⟨.simple, 0, 0, (0, 0), 0, 0, 0⟩).length = 44 ∧
    MakeEscrowIx.LEN = 44 ∧ (44 : Nat) ≠ 36 := by decide

/-- PDA validation fails exactly on a derivation mismatch. -/
theorem validate_fail (derive : DeriveFn) (pda owner : Pubkey) (bump : Nat)
    (seed : Nat × Nat)
    (h : derive [escrowSeedConst, owner, [seed.1, seed.2], [bump]] ≠ pda) :
    validate_escrow_pda derive pda owner bump seed =
      .error (.custom .pdaMismatch) := by
  unfold validate_escrow_pda
  simp [h]

/-- PDA validation succeeds on a derivation match. -/
theorem validate_ok (derive : DeriveFn) (pda owner : Pubkey) (bump : Nat)
    (seed : Nat × Nat)
    (h : derive [escrowSeedConst, owner, [seed.1, seed.2], [bump]] = pda) :
    validate_escrow_pda derive pda owner bump seed = .ok () := by
  unfold validate_escrow_pda
  simp [h]

/-- C2 (amended): before variant dispatch the Take handler re-derives the
record's address from the PASSED maker account's key together with the
record's stored seed and bump, and fails with PdaMismatch whenever that
derived address differs from the record account's address. -/
theorem c2_pda_rederivation (derive : DeriveFn) (inp : TakeInputs)
    (h : derive [escrowSeedConst, inp.makerAccountKey,
        [inp.escrow.seed.1, inp.escrow.seed.2], [inp.escrow.bump]] ≠
        inp.escrowAccountKey) :
    take_escrow derive inp = .err (.custom .pdaMismatch) := by
  unfold take_escrow
  rw [validate_fail derive _ _ _ _ h]

/-- C2 witness: the PDA-mismatch path at a concrete mismatched input. -/
theorem c2_pda_rederivation_witness :
    take_escrow modelDerive takeInpBadPda = .err (.custom .pdaMismatch) :=
  c2_pda_rederivation modelDerive takeInpBadPda (by decide)

/-- C1 (amended): a Simple take that passes the PDA, signer and mint
checks requires the record's asset_a_amount to be at most the TAKER's
asset-A balance and its asset_b_amount to be at most the taker's asset-B
balance, failing with InsufficientFunds before any transfer when either
bound is violated; when both hold it moves the full asset_a_amount from
the vault to the taker and the full asset_b_amount from the taker to the
maker, leaving the record unchanged. -/
theorem c1_simple_take_balance_guards (derive : DeriveFn) (inp : TakeInputs)
    (hpda : derive [escrowSeedConst, inp.makerAccountKey,
        [inp.escrow.seed.1, inp.escrow.seed.2], [inp.escrow.bump]] =
        inp.escrowAccountKey)
    (hsig : inp.takerIsSigner = true)
    (hma : inp.takerTokenAMint = inp.escrow.token_a_mint)
    (hmb : inp.takerTokenBMint = inp.escrow.token_b_mint)
    (hty : inp.escrow.escrow_type = .simple) :
    ((inp.takerTokenABalance < inp.escrow.token_a_amount ∨
        inp.takerTokenBBalance < inp.escrow.token_b_amount) →
      take_escrow derive inp = .err (.custom .insufficientFunds)) ∧
    (inp.escrow.token_a_amount ≤ inp.takerTokenABalance →
      inp.escrow.token_b_amount ≤ inp.takerTokenBBalance →
      take_escrow derive inp =
        .ok [⟨.vaultA, .takerA, inp.escrow.token_a_amount⟩,
             ⟨.takerB, .makerB, inp.escrow.token_b_amount⟩] inp.escrow) := by
  have hred : take_escrow derive inp =
      if inp.takerTokenABalance < inp.escrow.token_a_amount ∨
          inp.takerTokenBBalance < inp.escrow.token_b_amount then
        .err (.custom .insufficientFunds)
      else
        .ok [⟨.vaultA, .takerA, inp.escrow.token_a_amount⟩,
             ⟨.takerB, .makerB, inp.escrow.token_b_amount⟩] inp.escrow := by
    unfold take_escrow
    rw [validate_ok derive _ _ _ _ hpda]
    simp [hsig, hma, hmb, hty]
  constructor
  · intro hor
    rw [hred, if_pos hor]
  · intro h1 h2
    rw [hred, if_neg (by omega)]

/-- C1 witness: a concrete Simple take with a sufficiently funded taker
transfers both full amounts. -/
theorem c1_simple_take_balance_guards_witness :
    take_escrow modelDerive takeInpSimpleOk =
      .ok [⟨.vaultA, .takerA, 50⟩, ⟨.takerB, .makerB, 50⟩]
        takeInpSimpleOk.escrow := by
  have h := (c1_simple_take_balance_guards modelDerive takeInpSimpleOk
    (by decide) (by decide) (by decide) (by decide) (by decide)).2
    (by decide) (by decide)
  exact h.trans (by decide)

/-- C5 (amended): a Partial take that passes the PDA, signer and mint
checks, with requested_a at most the remaining nonzero asset_a_amount,
computes percentage = requested_a * 10000 / remaining_a (wrapping u64
product, truncating division) and then owed_b = remaining_b * percentage
/ 10000 (likewise), in that order; provided owed_b is at most the
taker's asset-B balance it transfers requested_a from the vault to the
taker and owed_b from the taker to the maker and decrements the record's
asset_a_amount by requested_a and asset_b_amount by owed_b (plain
subtraction: no underflow occurs). -/
theorem c5_partial_settlement (derive : DeriveFn) (inp : TakeInputs)
    (ix : TakeEscrowIx)
    (hpda : derive [escrowSeedConst, inp.makerAccountKey,
        [inp.escrow.seed.1, inp.escrow.seed.2], [inp.escrow.bump]] =
        inp.escrowAccountKey)
    (hsig : inp.takerIsSigner = true)
    (hma : inp.takerTokenAMint = inp.escrow.token_a_mint)
    (hmb : inp.takerTokenBMint = inp.escrow.token_b_mint)
    (hty : inp.escrow.escrow_type = .partialFill)
    (hix : TakeEscrowIx.unpack inp.instructionData = .ok ix)
    (hreq : ix.token_a_amount ≤ inp.escrow.token_a_amount)
    (hpos : 0 < inp.escrow.token_a_amount)
    (hbal : inp.escrow.token_b_amount *
        (ix.token_a_amount * 10000 % U64MOD / inp.escrow.token_a_amount) %
        U64MOD / 10000 ≤ inp.takerTokenBBalance) :
    take_escrow derive inp =
      .ok [⟨.vaultA, .takerA, ix.token_a_amount⟩,
           ⟨.takerB, .makerB,
            inp.escrow.token_b_amount *
              (ix.token_a_amount * 10000 % U64MOD / inp.escrow.token_a_amount) %
              U64MOD / 10000⟩]
        { inp.escrow with
          token_a_amount := inp.escrow.token_a_amount - ix.token_a_amount,
          token_b_amount := inp.escrow.token_b_amount -
            inp.escrow.token_b_amount *
              (ix.token_a_amount * 10000 % U64MOD / inp.escrow.token_a_amount) %
              U64MOD / 10000 } := by
  have howed := owed_le inp.escrow.token_a_amount inp.escrow.token_b_amount
    ix.token_a_amount hreq hpos
  unfold take_escrow
  rw [validate_ok derive _ _ _ _ hpda]
  simp only [hsig, hma, hmb, hty, hix, Bool.not_true, Bool.false_eq_true,
    if_false, ne_eq, not_true_eq_false, if_neg (by omega : ¬ inp.escrow.token_a_amount < ix.token_a_amount),
    if_neg (by omega : ¬ inp.escrow.token_a_amount = 0)]
  rw [if_neg (by omega : ¬ inp.takerTokenBBalance <
    inp.escrow.token_b_amount *
      (ix.token_a_amount * 10000 % U64MOD / inp.escrow.token_a_amount) %
      U64MOD / 10000)]
  rw [wsub_eq_sub _ _ hreq, wsub_eq_sub _ _ howed]

/-- C5 witness: a concrete half fill of a 100/100 Partial record hands
over 50 for 50 and leaves 50/50 on the record. -/
theorem c5_partial_settlement_witness :
    take_escrow modelDerive takeInpPartialOk =
      .ok [⟨.vaultA, .takerA, 50⟩, ⟨.takerB, .makerB, 50⟩]
        { partialEscrow100 with token_a_amount := 50, token_b_amount := 50 } := by
  have h := c5_partial_settlement modelDerive takeInpPartialOk
    ⟨.partialFill, 50, 0⟩ (by decide) (by decide) (by decide) (by decide)
    (by decide) (by decide) (by decide) (by decide) (by decide)
  exact h.trans (by decide)

/-- C10 (amended): in a Partial take that passes the PDA, signer, mint
and requested-at-most-remaining checks, the divisor of the percentage
computation is the record's remaining asset_a_amount: while it is
nonzero the handler never panics, but on a fully-consumed open record
(remaining = 0) a take with requested_a = 0 passes the guard and the
division panics with divide-by-zero. -/
theorem c10_partial_divisor (derive : DeriveFn) (inp : TakeInputs)
    (ix : TakeEscrowIx)
    (hpda : derive [escrowSeedConst, inp.makerAccountKey,
        [inp.escrow.seed.1, inp.escrow.seed.2], [inp.escrow.bump]] =
        inp.escrowAccountKey)
    (hsig : inp.takerIsSigner = true)
    (hma : inp.takerTokenAMint = inp.escrow.token_a_mint)
    (hmb : inp.takerTokenBMint = inp.escrow.token_b_mint)
    (hty : inp.escrow.escrow_type = .partialFill)
    (hix : TakeEscrowIx.unpack inp.instructionData = .ok ix) :
    (0 < inp.escrow.token_a_amount → take_escrow derive inp ≠ .panicked) ∧
    (inp.escrow.token_a_amount = 0 → ix.token_a_amount = 0 →
      take_escrow derive inp = .panicked) := by
  have hred : take_escrow derive inp =
      (if inp.escrow.token_a_amount < ix.token_a_amount then
        .err (.custom .insufficientFunds)
      else if inp.escrow.token_a_amount = 0 then .panicked
      else
        let percentage :=
          ix.token_a_amount * 10000 % U64MOD / inp.escrow.token_a_amount
        let token_b_amount :=
          inp.escrow.token_b_amount * percentage % U64MOD / 10000
        if inp.takerTokenBBalance < token_b_amount then
          .err (.custom .insufficientFunds)
        else
          .ok [⟨.vaultA, .takerA, ix.token_a_amount⟩,
               ⟨.takerB, .makerB, token_b_amount⟩]
            { inp.escrow with
              token_a_amount := wsub inp.escrow.token_a_amount ix.token_a_amount,
              token_b_amount :=
                wsub inp.escrow.token_b_amount token_b_amount } :
        TakeOutcome) := by
    unfold take_escrow
    rw [validate_ok derive _ _ _ _ hpda]
    simp [hsig, hma, hmb, hty, hix]
  constructor
  · intro hpos
    rw [hred]
    split
    · simp
    · split
      · exfalso; omega
      · simp only []
        split
        · simp
        · simp
  · intro hz hr
    rw [hred, if_neg (by omega), if_pos hz]

/-- C10 witness: the divide-by-zero panic at the concrete consumed
record, via the amended theorem. -/
theorem c10_partial_divisor_witness :
    take_escrow modelDerive takeInpConsumed = .panicked :=
  (c10_partial_divisor modelDerive takeInpConsumed ⟨.partialFill, 0, 0⟩
    (by decide) (by decide) (by decide) (by decide) (by decide)
    (by decide)).2 (by decide) (by decide)

/-- Fund conservation along a fill sequence: every successful run
consumes exactly the sum of the requested amounts from asset A (without
ever underflowing) and only ever decreases asset B. -/
theorem runFills_monotone (bal : Nat) (reqs : List Nat) :
    ∀ a b a2 b2, runFills bal a b reqs = some (a2, b2) →
      reqs.sum ≤ a ∧ a2 = a - reqs.sum ∧ b2 ≤ b := by
  induction reqs with
  | nil =>
    intro a b a2 b2 h
    simp [runFills] at h
    simp [← h.1, ← h.2]
  | cons req rest ih =>
    intro a b a2 b2 h
    simp only [runFills] at h
    cases hstep : partialStep bal a b req with
    | insufficient => rw [hstep] at h; simp at h
    | divPanic => rw [hstep] at h; simp at h
    | next a1 b1 =>
      rw [hstep] at h
      simp only [] at h
      obtain ⟨hreq, hpos, howed, ha1, hb1⟩ := partialStep_next _ _ _ _ _ _ hstep
      obtain ⟨hs, ha2, hb2⟩ := ih a1 b1 a2 b2 h
      simp only [List.sum_cons]
      omega

/-- Along a fill sequence in the no-overflow regime, the two remaining
amounts hit zero together: each successful step leaves asset A at zero
exactly when it leaves asset B at zero. -/
theorem runFills_zero_iff (bal : Nat) (reqs : List Nat) :
    ∀ a b a2 b2, (a = 0 ↔ b = 0) →
      a * 10000 < U64MOD → b * 10000 < U64MOD →
      runFills bal a b reqs = some (a2, b2) → (a2 = 0 ↔ b2 = 0) := by
  induction reqs with
  | nil =>
    intro a b a2 b2 hiff ha hb h
    simp [runFills] at h
    omega
  | cons req rest ih =>
    intro a b a2 b2 hiff ha hb h
    simp only [runFills] at h
    cases hstep : partialStep bal a b req with
    | insufficient => rw [hstep] at h; simp at h
    | divPanic => rw [hstep] at h; simp at h
    | next a1 b1 =>
      rw [hstep] at h
      simp only [] at h
      obtain ⟨hreq, hpos, howed, ha1, hb1⟩ := partialStep_next _ _ _ _ _ _ hstep
      have hbpos : 0 < b := by omega
      have hnw1 : req * 10000 < U64MOD := by
        have : req * 10000 ≤ a * 10000 := Nat.mul_le_mul_right 10000 hreq
        omega
      have hp_eq : req * 10000 % U64MOD / a = req * 10000 / a := by
        rw [Nat.mod_eq_of_lt hnw1]
      have hp_le : req * 10000 / a ≤ 10000 := by
        have := percentage_le a req hreq hpos
        rwa [hp_eq] at this
      have hnw2 : b * (req * 10000 / a) < U64MOD := by
        have : b * (req * 10000 / a) ≤ b * 10000 := Nat.mul_le_mul_left b hp_le
        omega
      have howed_eq : b * (req * 10000 % U64MOD / a) % U64MOD / 10000 =
          b * (req * 10000 / a) / 10000 := by
        rw [hp_eq, Nat.mod_eq_of_lt hnw2]
      -- the step leaves asset B at zero exactly when it consumes all of
      -- asset A: owed = b iff percentage = 10000 iff req = a
      have hiff1 : a1 = 0 ↔ b1 = 0 := by
        rw [ha1, hb1, howed_eq]
        constructor
        · intro hz
          have hra : req = a := by omega
          rw [hra]
          rw [Nat.mul_comm a 10000, Nat.mul_div_cancel 10000 hpos]
          rw [Nat.mul_div_cancel b (by norm_num : (0 : Nat) < 10000)]
          omega
        · intro hz
          have hole : b * (req * 10000 / a) / 10000 ≤ b := by
            have := owed_le a b req hreq hpos
            rwa [howed_eq] at this
          have hob : b ≤ b * (req * 10000 / a) / 10000 := by omega
          have h1 : b * 10000 ≤ b * (req * 10000 / a) :=
            (Nat.le_div_iff_mul_le (by norm_num)).mp hob
          have h2 : 10000 ≤ req * 10000 / a :=
            Nat.le_of_mul_le_mul_left (by omega) hbpos
          have h3 : 10000 * a ≤ req * 10000 :=
            (Nat.le_div_iff_mul_le hpos).mp h2
          omega
      refine ih a1 b1 a2 b2 hiff1 ?_ ?_ h
      · have : a1 ≤ a := by omega
        have : a1 * 10000 ≤ a * 10000 := Nat.mul_le_mul_right 10000 this
        omega
      · have : b1 ≤ b := by omega
        have : b1 * 10000 ≤ b * 10000 := Nat.mul_le_mul_right 10000 this
        omega

/-- C6 (amended): across every sequence of successful Partial fills the
record's amounts never underflow and only decrease, asset_a_amount ends
at exactly the initial amount minus the sum of the fills (zero exactly
when that sum is the whole amount), and — provided both initial amounts
are positive and small enough that the basis-point products fit in u64 —
asset_b_amount reaches zero exactly when asset_a_amount does.  In the
concrete scenario 5000/10000 with fills 500, 1000, 750, 1250, 1500 the
intermediate records are (4500, 9000), (3500, 7001), (2750, 5502),
(1500, 3002) and finally (0, 0): cumulative owed_b is exactly
10000 - 0 = 10000 and remaining asset A is exactly 0. -/
theorem c6_partial_fill_invariants :
    (∀ bal a b reqs a2 b2, runFills bal a b reqs = some (a2, b2) →
      a2 ≤ a ∧ b2 ≤ b ∧ reqs.sum ≤ a ∧ a2 = a - reqs.sum ∧
        (a2 = 0 ↔ reqs.sum = a)) ∧
    (∀ bal a b reqs a2 b2, 0 < a → 0 < b →
      a * 10000 < U64MOD → b * 10000 < U64MOD →
      runFills bal a b reqs = some (a2, b2) → (a2 = 0 ↔ b2 = 0)) ∧
    (runFills 1000000 5000 10000 [500] = some (4500, 9000) ∧
      runFills 1000000 5000 10000 [500, 1000] = some (3500, 7001) ∧
      runFills 1000000 5000 10000 [500, 1000, 750] = some (2750, 5502) ∧
      runFills 1000000 5000 10000 [500, 1000, 750, 1250] = some (1500, 3002) ∧
      runFills 1000000 5000 10000 [500, 1000, 750, 1250, 1500] =
        some (0, 0)) := by
  refine ⟨?_, ?_, by decide⟩
  · intro bal a b reqs a2 b2 h
    obtain ⟨hs, ha2, hb2⟩ := runFills_monotone bal reqs a b a2 b2 h
    omega
  · intro bal a b reqs a2 b2 ha hb h1 h2 h
    exact runFills_zero_iff bal reqs a b a2 b2 (by omega) h1 h2 h

/-- C6 witness: both universally-quantified parts instantiated on the
concrete 5000/10000 scenario run. -/
theorem c6_partial_fill_invariants_witness :
    ((0 : Nat) ≤ 5000 ∧ (0 : Nat) ≤ 10000 ∧
      [500, 1000, 750, 1250, 1500].sum ≤ 5000 ∧
      (0 : Nat) = 5000 - [500, 1000, 750, 1250, 1500].sum ∧
      ((0 : Nat) = 0 ↔ [500, 1000, 750, 1250, 1500].sum = 5000)) ∧
    ((0 : Nat) = 0 ↔ (0 : Nat) = 0) := by
  constructor
  · exact c6_partial_fill_invariants.1 1000000 5000 10000
      [500, 1000, 750, 1250, 1500] 0 0 (by decide)
  · exact c6_partial_fill_invariants.2.1 1000000 5000 10000
      [500, 1000, 750, 1250, 1500] 0 0 (by decide) (by decide)
      (by decide) (by decide) (by decide)

/-- The numeric value of the u128 modulus. -/
theorem U128MOD_eq : U128MOD = 340282366920938463463374607431768211456 := by
  norm_num [U128MOD]

/-- Closed form of the concrete auction's price curve. -/
theorem dutch_price_closed (t : Nat) :
    calculate_dutch_price dutchAuctionE t =
      if t = 0 then (10000 : Nat)
      else if 3600 ≤ t then 5000
      else 10000 - 5000 * t / 3600 := by
  by_cases h0 : t = 0
  · subst h0; decide
  · by_cases h1 : 3600 ≤ t
    · rw [if_neg h0, if_pos h1]
      unfold calculate_dutch_price dutchAuctionE
      simp only []
      rw [if_neg (by omega : ¬ t ≤ 0), if_pos h1]
    · rw [if_neg h0, if_neg h1]
      unfold calculate_dutch_price dutchAuctionE
      simp only []
      rw [if_neg (by omega : ¬ t ≤ 0), if_neg h1]
      have e1 : wsub 10000 5000 = 5000 := by decide
      have hub : 5000 * t / 3600 ≤ 5000 := by
        calc 5000 * t / 3600 ≤ 5000 * 3600 / 3600 :=
            Nat.div_le_div_right (Nat.mul_le_mul_left 5000 (by omega))
          _ = 5000 := by norm_num
      have e2 : 5000 * (t - 0) % U128MOD = 5000 * t := by
        rw [Nat.sub_zero, Nat.mod_eq_of_lt]
        rw [U128MOD_eq]
        omega
      have e3 : 5000 * t / (3600 - 0) % U64MOD = 5000 * t / 3600 := by
        rw [show (3600 - 0 : Nat) = 3600 from rfl, Nat.mod_eq_of_lt]
        rw [U64MOD_eq]
        omega
      rw [e1, e2, e3, wsub_eq_sub _ _ (by omega)]

/-- C7: the concrete Dutch auction (start 10000, end 5000, duration
3600) prices at 10000, 5000, 7500 and 8750 at times 0, 3600, 1800 and
900, and its price is non-increasing in time. -/
theorem c7_dutch_price_values_monotone :
    calculate_dutch_price dutchAuctionE 0 = 10000 ∧
    calculate_dutch_price dutchAuctionE 3600 = 5000 ∧
    calculate_dutch_price dutchAuctionE 1800 = 7500 ∧
    calculate_dutch_price dutchAuctionE 900 = 8750 ∧
    ∀ t1 t2 : Nat, t1 < t2 →
      calculate_dutch_price dutchAuctionE t2 ≤
        calculate_dutch_price dutchAuctionE t1 := by
  refine ⟨by decide, by decide, by decide, by decide, ?_⟩
  intro t1 t2 hlt
  rw [dutch_price_closed t1, dutch_price_closed t2]
  by_cases h2 : 3600 ≤ t2
  · rw [if_neg (by omega : ¬ t2 = 0), if_pos h2]
    split
    · omega
    · split
      · omega
      · have : 5000 * t1 / 3600 ≤ 5000 := by
          calc 5000 * t1 / 3600 ≤ 5000 * 3600 / 3600 :=
              Nat.div_le_div_right (Nat.mul_le_mul_left 5000 (by omega))
            _ = 5000 := by norm_num
        omega
  · rw [if_neg (by omega : ¬ t2 = 0), if_neg h2]
    by_cases h10 : t1 = 0
    · rw [if_pos h10]
      omega
    · rw [if_neg h10, if_neg (by omega : ¬ 3600 ≤ t1)]
      have hm : 5000 * t1 / 3600 ≤ 5000 * t2 / 3600 :=
        Nat.div_le_div_right (Nat.mul_le_mul_left 5000 (by omega))
      have hb : 5000 * t2 / 3600 ≤ 5000 := by
        calc 5000 * t2 / 3600 ≤ 5000 * 3600 / 3600 :=
            Nat.div_le_div_right (Nat.mul_le_mul_left 5000 (by omega))
          _ = 5000 := by norm_num
      omega

/-- C7 witness: the monotonicity part at times 900 < 1800. -/
theorem c7_dutch_price_values_monotone_witness :
    calculate_dutch_price dutchAuctionE 1800 ≤
      calculate_dutch_price dutchAuctionE 900 :=
  c7_dutch_price_values_monotone.2.2.2.2 900 1800 (by decide)

/-- C3 (amended): only the Dutch-auction pricing intermediate is
overflow-safe: the widened product price_drop * time_elapsed always fits
u128 for u64 record fields.  The Partial product requested_a * 10000 is
computed in u64 and exceeds u64 for reachable inputs (requested_a =
remaining_a = 2^60, where the wrapped computation completes and hands
over all asset A for 0 asset B), and make_escrow's end_time = now +
duration is computed in u64 and wraps (now = duration = 2^63 gives
end_time 0). -/
theorem c3_arith_width :
    (∀ (e : Escrow) (t : Nat), e.start_price < U64MOD → t < U64MOD →
      wsub e.start_price e.end_price * (t - e.start_time) < U128MOD) ∧
    (U64MOD ≤ 2 ^ 60 * 10000 ∧
      partialStep 100 (2 ^ 60) 7 (2 ^ 60) = .next 0 7) ∧
    (U64MOD ≤ 2 ^ 63 + 2 ^ 63 ∧
      (makeAuctionTimes .dutchAuction (2 ^ 63) (2 ^ 63)).2 = 0) := by
  refine ⟨?_, by decide, by decide⟩
  intro e t h1 h2
  have hd : wsub e.start_price e.end_price < U64MOD := wsub_lt_u64 _ _ h1
  have he : t - e.start_time < U64MOD := by omega
  calc wsub e.start_price e.end_price * (t - e.start_time)
      < U64MOD * U64MOD := by
        apply Nat.mul_lt_mul_of_lt_of_le hd (Nat.le_of_lt he)
        rw [U64MOD_eq]; omega
    _ = U128MOD := by rw [U64MOD_eq, U128MOD_eq]

/-- C3 witness: the u128 intermediate fits at the concrete auction. -/
theorem c3_arith_width_witness :
    wsub dutchAuctionE.start_price dutchAuctionE.end_price *
      (1800 - dutchAuctionE.start_time) < U128MOD :=
  c3_arith_width.1 dutchAuctionE 1800 (by decide) (by decide)

/-- Normal form of 8-byte little-endian encoding. -/
theorem natToLe8 (n : Nat) : natToLe 8 n =
    [n % 256, n / 256 % 256, n / 256 / 256 % 256, n / 256 / 256 / 256 % 256,
     n / 256 / 256 / 256 / 256 % 256, n / 256 / 256 / 256 / 256 / 256 % 256,
     n / 256 / 256 / 256 / 256 / 256 / 256 % 256,
     n / 256 / 256 / 256 / 256 / 256 / 256 / 256 % 256] := rfl

/-- Decoding a buffer that starts with the 36 written payload bytes of a
MakeEscrowIx recovers the value, whatever follows those 36 bytes: the
decoder never reads past index 35. -/
theorem make_unpack_layout (ix : MakeEscrowIx) (rest : List Nat)
    (ha : ix.token_a_amount < U64MOD) (hb : ix.token_b_amount < U64MOD)
    (he : ix.end_price < U64MOD) (hd : ix.duration < U64MOD) :
    MakeEscrowIx.unpack (makeLayout36 ix ++ rest) = .ok ix := by
  obtain ⟨t, a, b, ⟨s1, s2⟩, bp, ep, d⟩ := ix
  dsimp only at ha hb he hd
  rw [U64MOD_eq] at ha hb he hd
  cases t <;>
    simp only [makeLayout36, MakeEscrowIx.unpack, natToLe8, leToNat,
      EscrowType.toU8, EscrowType.tryFromU8, List.cons_append,
      List.nil_append, Unpacked.ok.injEq, MakeEscrowIx.mk.injEq,
      Prod.mk.injEq] <;>
    exact ⟨trivial, by omega, by omega, trivial, trivial, by omega, by omega⟩

/-- C8 (amended): MakeEscrowIx encodes to 44 bytes, not 36: the first 36
bytes are the little-endian layout variant:u8, asset_a_amount:u64,
asset_b_amount_or_start_price:u64, seed:[u8;2], bump:u8, end_price:u64,
duration:u64, followed by 8 zero bytes that pack never writes (LEN sums
to 44); the decoder consumes exactly the first 36 bytes and ignores
anything after them. -/
theorem c8_make_encoding (ix : MakeEscrowIx)
    (ha : ix.token_a_amount < U64MOD) (hb : ix.token_b_amount < U64MOD)
    (he : ix.end_price < U64MOD) (hd : ix.duration < U64MOD) :
    (MakeEscrowIx.pack ix).length = 44 ∧
    (makeLayout36 ix).length = 36 ∧
    MakeEscrowIx.pack ix = makeLayout36 ix ++ List.replicate 8 0 ∧
    (∀ rest : List Nat,
      MakeEscrowIx.unpack (makeLayout36 ix ++ rest) = .ok ix) := by
  have hlen : (makeLayout36 ix).length = 36 := by
    simp [makeLayout36, natToLe_length]
  refine ⟨?_, hlen, rfl, fun rest => make_unpack_layout ix rest ha hb he hd⟩
  simp [MakeEscrowIx.pack, hlen]

/-- C8 witness: the amended encoding facts at a concrete payload. -/
theorem c8_make_encoding_witness :
    (MakeEscrowIx.pack ⟨.dutchAuction, 5, 6, (7, 8), 9, 10, 11⟩).length = 44 ∧
    MakeEscrowIx.unpack
        (makeLayout36 ⟨.dutchAuction, 5, 6, (7, 8), 9, 10, 11⟩ ++ [1, 2, 3]) =
      .ok ⟨.dutchAuction, 5, 6, (7, 8), 9, 10, 11⟩ := by
  have h := c8_make_encoding ⟨.dutchAuction, 5, 6, (7, 8), 9, 10, 11⟩
    (by decide) (by decide) (by decide) (by decide)
  exact ⟨h.1, h.2.2.2 [1, 2, 3]⟩

/-- C9: decode is a left inverse of encode for both instruction
payloads, for every field combination in range (any variant tag in
0..3, u64 amounts). -/
theorem c9_roundtrip :
    (∀ ix : MakeEscrowIx, ix.token_a_amount < U64MOD →
      ix.token_b_amount < U64MOD → ix.end_price < U64MOD →
      ix.duration < U64MOD →
      MakeEscrowIx.unpack (MakeEscrowIx.pack ix) = .ok ix) ∧
    (∀ ix : TakeEscrowIx, ix.token_a_amount < U64MOD →
      ix.token_b_amount < U64MOD →
      TakeEscrowIx.unpack (TakeEscrowIx.pack ix) = .ok ix) := by
  constructor
  · intro ix ha hb he hd
    exact make_unpack_layout ix (List.replicate 8 0) ha hb he hd
  · intro ix ha hb
    obtain ⟨t, a, b⟩ := ix
    dsimp only at ha hb
    rw [U64MOD_eq] at ha hb
    cases t <;>
      (simp only [TakeEscrowIx.pack, TakeEscrowIx.unpack, natToLe8, leToNat,
        EscrowType.toU8, EscrowType.tryFromU8, List.cons_append,
        List.nil_append, List.length_cons, List.length_nil]
       rw [if_neg (by norm_num)]
       simp only [Unpacked.ok.injEq, TakeEscrowIx.mk.injEq]
       exact ⟨trivial, by omega, by omega⟩)

/-- C9 witness: the round-trip at concrete payloads of each kind. -/
theorem c9_roundtrip_witness :
    MakeEscrowIx.unpack
        (MakeEscrowIx.pack ⟨.oracle, 123456789, 7, (200, 5), 254, 42, 3600⟩) =
      .ok ⟨.oracle, 123456789, 7, (200, 5), 254, 42, 3600⟩ ∧
    TakeEscrowIx.unpack (TakeEscrowIx.pack ⟨.partialFill, 88, 99⟩) =
      .ok ⟨.partialFill, 88, 99⟩ :=
  ⟨c9_roundtrip.1 ⟨.oracle, 123456789, 7, (200, 5), 254, 42, 3600⟩
      (by decide) (by decide) (by decide) (by decide),
   c9_roundtrip.2 ⟨.partialFill, 88, 99⟩ (by decide) (by decide)⟩

/-- C10 counterexample: on a fully-consumed open Partial record
(remaining asset A = 0), a take with requested_a = 0 passes the
requested-at-most-remaining guard and the settlement division's divisor
is the remaining amount 0: the handler panics with division by zero. -/
theorem c10_div_by_zero_counterexample :
    takeInpConsumed.escrow.token_a_amount = 0 ∧
    TakeEscrowIx.unpack takeInpConsumed.instructionData =
      .ok ⟨.partialFill, 0, 0⟩ ∧
    take_escrow modelDerive takeInpConsumed = .panicked := by decide

end EscrowSuite
